import Mathlib

/-!
# FlaggedT: refinement-type wrappers

A shallow embedding of `src/flaggedT/flaggedT.h`.

* A container `T` is a `List α` (a `std::vector`); its elements carry a linear order
  (`operator<` for `std::sort`, `operator==` for `std::unique`).
* A constructor that can `throw std::logic_error` returns `Except String _`, the string
  being the message of the exception; a constructor that cannot throw returns the wrapper.
* Every wrapper class is a structure over `FlaggedTBase`, which owns the field `data`.
* The algorithms of the C++ standard library that the constructors call (`std::sort`,
  `std::unique`) are given as executable list functions.
* Three constructors of the source are ill-formed when instantiated and have no embedding:
  `Shuffled(T&&)` calls `std::shuffle(begin, end)`, which matches no overload (the generator
  argument is missing), and `UniqueAndSorted(Unique<T>&&)`, `UniqueAndSorted(Sorted<T>&&)` read
  the protected member `in.data` of `FlaggedTBase<T>` through an object of another class.
-/

namespace flaggedT

/-! ## The owning base -/

/-- The class `FlaggedTBase<T>`: owns exactly one value `data`. -/
structure FlaggedTBase (T : Type) where
  data : T
  deriving DecidableEq, Repr

/-- The accessor `T const& get() const`. -/
def FlaggedTBase.get {T : Type} (self : FlaggedTBase T) : T :=
  self.data

/-- The conversion `operator T const& () const`. -/
def FlaggedTBase.to_const_ref {T : Type} (self : FlaggedTBase T) : T :=
  self.data

/-- The conversion `operator T&& ()`: `return std::move(data)`. It hands `data` to the caller as
an rvalue and returns; the class keeps no record of the call and `data` stays a member of the
wrapper. The first component is the value the caller receives, the second the wrapper
afterwards: its `data` is what the caller's move left there, `moved_from data` (the identity
when the caller only binds the reference or `T` is a scalar, the empty container for a
`std::vector` that was moved out). -/
def FlaggedTBase.to_rvalue {T : Type} (moved_from : T → T) (self : FlaggedTBase T) :
    T × FlaggedTBase T :=
  (self.data, ⟨moved_from self.data⟩)

/-! ## Standard-library algorithms -/

section Algorithms

variable {α : Type}

/-- `std::sort(first, last)`: rearranges the range into non-descending order. The standard
leaves the algorithm open; an insertion sort is used here (on a linear order every algorithm
that meets the contract gives the same sequence, see `std_sort_unique_result`). -/
def std_sort [LinearOrder α] (data : List α) : List α :=
  data.insertionSort (· ≤ ·)

/-- The loop of `std::unique`: `result` is the last element kept so far, the list holds the
elements still to be read (`first` onwards). An element equal to `*result` is skipped, any other
element is stored after `result` and becomes the new `*result`. -/
def std_unique_loop [DecidableEq α] (result : α) : List α → List α
  | [] => [result]
  | first :: rest =>
    if result = first then std_unique_loop result rest
    else result :: std_unique_loop first rest

/-- The call `data.erase(std::unique(begin, end), end)`: the range up to the iterator that
`std::unique` returns is what stays in the container. -/
def std_unique [DecidableEq α] : List α → List α
  | [] => []
  | first :: rest => std_unique_loop first rest

end Algorithms

/-! ## Container-transform policies -/

section Transform

variable {α : Type}

/-- The class `Sorted<T>`. -/
structure Sorted (α : Type) extends FlaggedTBase (List α)

/-- The class `Unique<T>`. -/
structure Unique (α : Type) extends FlaggedTBase (List α)

/-- The class `UniqueAndSorted<T>`. -/
structure UniqueAndSorted (α : Type) extends FlaggedTBase (List α)

/-- The constructor `Sorted(T&& in)`: moves `in` into `data`, then sorts `data`. -/
def Sorted.ctor [LinearOrder α] (x : List α) : Sorted α :=
  let base : FlaggedTBase (List α) := ⟨x⟩
  ⟨⟨std_sort base.data⟩⟩

/-- The private member `Unique::make_data_unique`, as a function on `data`. -/
def Unique.make_data_unique [DecidableEq α] (data : List α) : List α :=
  if data.isEmpty then data
  else std_unique data

/-- The constructor `Unique(T&& in)`: moves `in` into `data`, then `make_data_unique()`. -/
def Unique.ctor [DecidableEq α] (x : List α) : Unique α :=
  let base : FlaggedTBase (List α) := ⟨x⟩
  ⟨⟨Unique.make_data_unique base.data⟩⟩

/-- The private member `UniqueAndSorted::make_data_unique` (the duplicate definition). -/
def UniqueAndSorted.make_data_unique [DecidableEq α] (data : List α) : List α :=
  if data.isEmpty then data
  else std_unique data

/-- The constructor `UniqueAndSorted(T&& in)`: sort, then `make_data_unique()`. -/
def UniqueAndSorted.ctor [LinearOrder α] (x : List α) : UniqueAndSorted α :=
  let base : FlaggedTBase (List α) := ⟨x⟩
  let sorted := std_sort base.data
  ⟨⟨UniqueAndSorted.make_data_unique sorted⟩⟩

/-- The consecutive-run collapse in the words of the specification: the container is cut into
its maximal runs of consecutive equal elements and the first element of every run is kept, the
runs in their original order. -/
def consecutive_run_collapse [DecidableEq α] (x : List α) : List α :=
  (x.splitBy (fun a b => decide (a = b))).filterMap List.head?

/-- The class `Shuffled<T>`. Its constructor `Shuffled(T&& in)` is not embedded: the call
`std::shuffle(std::begin(data), std::end(data))` names no generator and matches no overload of
`std::shuffle`. -/
structure Shuffled (α : Type) extends FlaggedTBase (List α)

end Transform

/-! ## Sign policies -/

section Sign

variable {T : Type} [LinearOrder T] [Zero T]

/-- The class `NonZero<T>`. -/
structure NonZero (T : Type) extends FlaggedTBase T

/-- The class `Positive<T>`, derived from `NonZero<T>`. -/
structure Positive (T : Type) extends NonZero T

/-- The class `NonPositive<T>`. -/
structure NonPositive (T : Type) extends FlaggedTBase T

/-- The class `Negative<T>`, derived from `NonZero<T>`. -/
structure Negative (T : Type) extends NonZero T

/-- The class `NonNegative<T>`. -/
structure NonNegative (T : Type) extends FlaggedTBase T

/-- The constructor `NonZero(T&& in)`. -/
def NonZero.ctor (v : T) : Except String (NonZero T) :=
  let base : FlaggedTBase T := ⟨v⟩
  if 0 = base.data then
    throw "Can't pass 0 to constructor of NonZero"
  else pure ⟨base⟩

/-- The constructor `Positive(T&& in)`: the base `NonZero<T>` is constructed first. -/
def Positive.ctor (v : T) : Except String (Positive T) := do
  let base ← NonZero.ctor v
  if base.data ≤ 0 then
    throw "Can't pass <= 0 to constructor of Positive"
  else pure ⟨base⟩

/-- The constructor `NonPositive(T&& in)`. -/
def NonPositive.ctor (v : T) : Except String (NonPositive T) :=
  let base : FlaggedTBase T := ⟨v⟩
  if base.data > 0 then
    throw "Can't pass > 0 to constructor of NonPositive"
  else pure ⟨base⟩

/-- The constructor `Negative(T&& in)`: the base `NonZero<T>` is constructed first. -/
def Negative.ctor (v : T) : Except String (Negative T) := do
  let base ← NonZero.ctor v
  if base.data ≥ 0 then
    throw "Can't pass >= 0 to constructor of Negative"
  else pure ⟨base⟩

/-- The constructor `NonNegative(T&& in)`. -/
def NonNegative.ctor (v : T) : Except String (NonNegative T) :=
  let base : FlaggedTBase T := ⟨v⟩
  if base.data < 0 then
    throw "Can't pass < 0 to constructor of NonNegative"
  else pure ⟨base⟩

end Sign

/-! ## Static range policies -/

section Range

variable {T : Type} [LinearOrder T]

/-- The class `Bounded<T, MIN, MAX>`. -/
structure Bounded (T : Type) (MIN MAX : T) extends FlaggedTBase T

/-- The constructor `Bounded(T&& in)`: first the test against `MIN`, then against `MAX`. -/
def Bounded.ctor (MIN MAX : T) (v : T) : Except String (Bounded T MIN MAX) :=
  let base : FlaggedTBase T := ⟨v⟩
  if base.data < MIN then
    throw "Passed value to constructor of Bounded is too small"
  else if base.data > MAX then
    throw "Passed value to constructor of Bounded is too big"
  else pure ⟨base⟩

/-- The class `CeiledInclusive<T, MAX>`. -/
structure CeiledInclusive (T : Type) (MAX : T) extends FlaggedTBase T

/-- The class `CeiledExclusive<T, MAX>`. -/
structure CeiledExclusive (T : Type) (MAX : T) extends FlaggedTBase T

/-- The class `FlooredInclusive<T, MIN>`. -/
structure FlooredInclusive (T : Type) (MIN : T) extends FlaggedTBase T

/-- The class `FlooredExclusive<T, MIN>`. -/
structure FlooredExclusive (T : Type) (MIN : T) extends FlaggedTBase T

/-- The constructor `CeiledInclusive(T&& in)`. -/
def CeiledInclusive.ctor (MAX : T) (v : T) : Except String (CeiledInclusive T MAX) :=
  let base : FlaggedTBase T := ⟨v⟩
  if base.data > MAX then
    throw "Passed value to constructor of CeiledInclusive is too big"
  else pure ⟨base⟩

/-- The constructor `CeiledExclusive(T&& in)`. -/
def CeiledExclusive.ctor (MAX : T) (v : T) : Except String (CeiledExclusive T MAX) :=
  let base : FlaggedTBase T := ⟨v⟩
  if base.data ≥ MAX then
    throw "Passed value to constructor of CeiledExclusive is too big"
  else pure ⟨base⟩

/-- The constructor `FlooredInclusive(T&& in)`. -/
def FlooredInclusive.ctor (MIN : T) (v : T) : Except String (FlooredInclusive T MIN) :=
  let base : FlaggedTBase T := ⟨v⟩
  if base.data < MIN then
    throw "Passed value to constructor of FlooredInclusive is too small"
  else pure ⟨base⟩

/-- The constructor `FlooredExclusive(T&& in)`. -/
def FlooredExclusive.ctor (MIN : T) (v : T) : Except String (FlooredExclusive T MIN) :=
  let base : FlaggedTBase T := ⟨v⟩
  if base.data ≤ MIN then
    throw "Passed value to constructor of FlooredExclusive is too small"
  else pure ⟨base⟩

end Range

/-! ## Container-size policies -/

section Size

variable {α : Type}

/-- The class `NonEmpty<T>`. -/
structure NonEmpty (α : Type) extends FlaggedTBase (List α)

/-- The class `MoreThan<T, SIZE>`, derived from `NonEmpty<T>`. -/
structure MoreThan (α : Type) (SIZE : Nat) extends NonEmpty α

/-- The class `LessThan<T, SIZE>`. -/
structure LessThan (α : Type) (SIZE : Nat) extends FlaggedTBase (List α)

/-- The class `FixedSized<T, SIZE>`. -/
structure FixedSized (α : Type) (SIZE : Nat) extends FlaggedTBase (List α)

/-- The constructor `NonEmpty(T&& in)`. -/
def NonEmpty.ctor (c : List α) : Except String (NonEmpty α) :=
  let base : FlaggedTBase (List α) := ⟨c⟩
  if base.data.isEmpty then
    throw "Can't pass empty container to constructor of NonEmpty"
  else pure ⟨base⟩

/-- The constructor `MoreThan(T&& in)`: the base `NonEmpty<T>` is constructed first. -/
def MoreThan.ctor (SIZE : Nat) (c : List α) : Except String (MoreThan α SIZE) := do
  let base ← NonEmpty.ctor c
  if base.data.length ≤ SIZE then
    throw "Passed too small container to constructor of MoreThan"
  else pure ⟨base⟩

/-- The constructor `LessThan(T&& in)`. -/
def LessThan.ctor (SIZE : Nat) (c : List α) : Except String (LessThan α SIZE) :=
  let base : FlaggedTBase (List α) := ⟨c⟩
  if base.data.length ≥ SIZE then
    throw "Passed too big container to constructor of LessThan"
  else pure ⟨base⟩

/-- The constructor `FixedSized(T&& in)`. -/
def FixedSized.ctor (SIZE : Nat) (c : List α) : Except String (FixedSized α SIZE) :=
  let base : FlaggedTBase (List α) := ⟨c⟩
  if base.data.length ≠ SIZE then
    throw "Passed container with wrong size to constructor of FixedSized"
  else pure ⟨base⟩

end Size

/-! ## Nullability -/

section Null

variable {A : Type}

/-- The class `NonNull<T>`. A pointer-like `T` is `Option A`: `none` is the null pointer,
`some a` a pointer to `a`. -/
structure NonNull (T : Type) extends FlaggedTBase T

/-- The constructor `NonNull(T&& in)`: throws when `nullptr == data`. -/
def NonNull.ctor (p : Option A) : Except String (NonNull (Option A)) :=
  let base : FlaggedTBase (Option A) := ⟨p⟩
  if base.data.isNone then
    throw "Can't pass nullptr to constructor of NonNull"
  else pure ⟨base⟩

end Null

/-! ## Variants named by the specification -/

section SpecVariants

variable {T : Type} [LinearOrder T] [Zero T]

/-- The check of `Positive` as the strict test `< 0` after the inherited `NonZero` check (the
variant the specification compares the source with; the source tests `<= 0`). -/
def Positive.ctor_strict (v : T) : Except String (Positive T) := do
  let base ← NonZero.ctor v
  if base.data < 0 then
    throw "Can't pass <= 0 to constructor of Positive"
  else pure ⟨base⟩

/-- The check of `Negative` as the strict test `> 0` after the inherited `NonZero` check (the
variant the specification compares the source with; the source tests `>= 0`). -/
def Negative.ctor_strict (v : T) : Except String (Negative T) := do
  let base ← NonZero.ctor v
  if base.data > 0 then
    throw "Can't pass >= 0 to constructor of Negative"
  else pure ⟨base⟩

end SpecVariants

/-- A construction has failed when it ended in an exception. -/
def fails {ε β : Type} : Except ε β → Bool
  | .error _ => true
  | .ok _ => false

/-- A construction has succeeded when it returned a wrapper. -/
def succeeds {ε β : Type} : Except ε β → Bool
  | .error _ => false
  | .ok _ => true

/-! ## Facts about the standard-library algorithms -/

section AlgorithmFacts

variable {α : Type}

theorem std_sort_sorted [LinearOrder α] (l : List α) : (std_sort l).Sorted (· ≤ ·) :=
  List.sorted_insertionSort (· ≤ ·) l

theorem std_sort_perm [LinearOrder α] (l : List α) : (std_sort l).Perm l :=
  List.perm_insertionSort (· ≤ ·) l

/-- On a linear order the contract of `std::sort` fixes its result: every non-descending
rearrangement of `l` is `std_sort l`. -/
theorem std_sort_unique_result [LinearOrder α] (l s : List α) (hs : s.Sorted (· ≤ ·))
    (hp : s.Perm l) : s = std_sort l :=
  List.eq_of_perm_of_sorted (hp.trans (std_sort_perm l).symm) hs (std_sort_sorted l)

theorem std_sort_of_sorted [LinearOrder α] {l : List α} (h : l.Sorted (· ≤ ·)) :
    std_sort l = l :=
  (std_sort_unique_result l l h (List.Perm.refl l)).symm

theorem mem_std_sort [LinearOrder α] (a : α) (l : List α) : a ∈ std_sort l ↔ a ∈ l :=
  (std_sort_perm l).mem_iff

theorem std_unique_loop_eq_destutter' [DecidableEq α] (l : List α) (a : α) :
    std_unique_loop a l = l.destutter' (· ≠ ·) a := by
  induction l generalizing a with
  | nil => rfl
  | cons b t ih =>
    by_cases h : a = b
    · simp [std_unique_loop, List.destutter', h, ih]
    · simp [std_unique_loop, List.destutter', h, ih]

theorem std_unique_eq_destutter [DecidableEq α] (l : List α) :
    std_unique l = l.destutter (· ≠ ·) := by
  cases l with
  | nil => rfl
  | cons a t => exact std_unique_loop_eq_destutter' t a

theorem std_unique_sublist [DecidableEq α] (l : List α) : (std_unique l).Sublist l := by
  rw [std_unique_eq_destutter]
  exact List.destutter_sublist _ l

theorem std_unique_chain' [DecidableEq α] (l : List α) : (std_unique l).Chain' (· ≠ ·) := by
  rw [std_unique_eq_destutter]
  exact List.destutter_is_chain' _ l

theorem mem_std_unique_loop [DecidableEq α] (x : α) (l : List α) (a : α) :
    x ∈ std_unique_loop a l ↔ x = a ∨ x ∈ l := by
  induction l generalizing a with
  | nil => simp [std_unique_loop]
  | cons b t ih =>
    by_cases h : a = b
    · simp [std_unique_loop, h, ih]
    · simp [std_unique_loop, h, ih]

theorem mem_std_unique [DecidableEq α] (x : α) (l : List α) : x ∈ std_unique l ↔ x ∈ l := by
  cases l with
  | nil => simp [std_unique]
  | cons a t => simp [std_unique, mem_std_unique_loop]

/-- A non-descending list without equal neighbours is strictly ascending. -/
theorem sorted_lt_of_sorted_le_of_chain'_ne [LinearOrder α] :
    ∀ l : List α, l.Sorted (· ≤ ·) → l.Chain' (· ≠ ·) → l.Sorted (· < ·)
  | [], _, _ => List.sorted_nil
  | [_], _, _ => List.sorted_singleton _
  | a :: b :: t, hs, hc => by
    have hs' := List.sorted_cons.1 hs
    have hc' := List.chain'_cons.1 hc
    have htail := sorted_lt_of_sorted_le_of_chain'_ne (b :: t) hs'.2 hc'.2
    have hab : a < b := lt_of_le_of_ne (hs'.1 b (List.mem_cons_self b t)) hc'.1
    refine List.sorted_cons.2 ⟨?_, htail⟩
    intro c hc
    rcases List.mem_cons.1 hc with rfl | hct
    · exact hab
    · exact lt_trans hab ((List.sorted_cons.1 htail).1 c hct)

theorem std_unique_strict_of_sorted [LinearOrder α] {l : List α} (h : l.Sorted (· ≤ ·)) :
    (std_unique l).Sorted (· < ·) :=
  sorted_lt_of_sorted_le_of_chain'_ne _ (h.sublist (std_unique_sublist l)) (std_unique_chain' l)

theorem Unique_make_data_unique_eq [DecidableEq α] (data : List α) :
    Unique.make_data_unique data = std_unique data := by
  cases data <;> rfl

theorem UniqueAndSorted_make_data_unique_eq [DecidableEq α] (data : List α) :
    UniqueAndSorted.make_data_unique data = std_unique data := by
  cases data <;> rfl

theorem UniqueAndSorted_ctor_get [LinearOrder α] (x : List α) :
    (UniqueAndSorted.ctor x).get = std_unique (std_sort x) :=
  UniqueAndSorted_make_data_unique_eq _

theorem Unique_ctor_get [DecidableEq α] (x : List α) :
    (Unique.ctor x).get = std_unique x :=
  Unique_make_data_unique_eq _

theorem Sorted_ctor_get [LinearOrder α] (x : List α) :
    (Sorted.ctor x).get = std_sort x :=
  rfl

theorem head?_reverse_cons_of_all_eq (a : α) (g : List α) (hg : ∀ y ∈ g, y = a) :
    (a :: g).reverse.head? = some a := by
  rw [List.head?_reverse]
  cases hl : (a :: g).getLast? with
  | none => simp at hl
  | some z =>
    have hz : z ∈ a :: g := List.mem_of_getLast?_eq_some hl
    rcases List.mem_cons.1 hz with h | h
    · rw [h]
    · rw [hg z h]

/-- The run-cutting loop of `List.splitBy` against the loop of `std::unique`: `a` is the
element read last, `g` the rest of the run being assembled (all equal to `a`), `gs` the runs
already closed. -/
theorem splitBy_loop_heads [DecidableEq α] (l : List α) (a : α) (g : List α)
    (gs : List (List α)) (hg : ∀ y ∈ g, y = a) :
    (List.splitBy.loop (fun p q => decide (p = q)) l a g gs).filterMap List.head?
      = gs.reverse.filterMap List.head? ++ std_unique_loop a l := by
  induction l generalizing a g gs with
  | nil =>
    simp only [List.splitBy.loop, std_unique_loop, List.reverse_cons, List.filterMap_append]
    congr 1
    have h := head?_reverse_cons_of_all_eq a g hg
    rw [List.reverse_cons] at h
    simp [List.filterMap_cons, h]
  | cons b t ih =>
    by_cases hab : a = b
    · subst hab
      have hstep : List.splitBy.loop (fun p q => decide (p = q)) (a :: t) a g gs
          = List.splitBy.loop (fun p q => decide (p = q)) t a (a :: g) gs := by
        simp [List.splitBy.loop]
      rw [hstep, ih a (a :: g) gs (by
        intro y hy
        rcases List.mem_cons.1 hy with h | h
        · exact h
        · exact hg y h)]
      simp [std_unique_loop]
    · have hstep : List.splitBy.loop (fun p q => decide (p = q)) (b :: t) a g gs
          = List.splitBy.loop (fun p q => decide (p = q)) t b [] ((a :: g).reverse :: gs) := by
        simp [List.splitBy.loop, hab]
      rw [hstep, ih b [] ((a :: g).reverse :: gs) (by simp)]
      have h := head?_reverse_cons_of_all_eq a g hg
      simp only [List.reverse_cons, List.filterMap_append] at h ⊢
      simp [List.filterMap_cons, h, std_unique_loop, hab]

theorem std_unique_eq_consecutive_run_collapse [DecidableEq α] (l : List α) :
    std_unique l = consecutive_run_collapse l := by
  cases l with
  | nil => rfl
  | cons a t =>
    have h := splitBy_loop_heads t a [] [] (by simp)
    simp only [List.reverse_nil, List.filterMap_nil, List.nil_append] at h
    simp only [consecutive_run_collapse, List.splitBy, std_unique]
    exact h.symm

theorem std_unique_of_chain'_ne [DecidableEq α] {l : List α} (h : l.Chain' (· ≠ ·)) :
    std_unique l = l := by
  rw [std_unique_eq_destutter]
  exact List.destutter_of_chain' _ l h

/-- Two strictly ascending lists with the same elements are the same list. -/
theorem eq_of_sorted_lt_of_mem_iff [LinearOrder α] {l₁ l₂ : List α}
    (h₁ : l₁.Sorted (· < ·)) (h₂ : l₂.Sorted (· < ·)) (hm : ∀ a, a ∈ l₁ ↔ a ∈ l₂) :
    l₁ = l₂ :=
  List.eq_of_perm_of_sorted ((List.perm_ext_iff_of_nodup h₁.nodup h₂.nodup).2 hm) h₁ h₂

theorem eq_nil_iff_of_mem_iff {l₁ l₂ : List α} (hm : ∀ a, a ∈ l₁ ↔ a ∈ l₂) :
    l₁ = [] ↔ l₂ = [] := by
  simp only [List.eq_nil_iff_forall_not_mem, hm]

theorem mem_UniqueAndSorted_ctor [LinearOrder α] (a : α) (x : List α) :
    a ∈ (UniqueAndSorted.ctor x).get ↔ a ∈ x := by
  rw [UniqueAndSorted_ctor_get, mem_std_unique, mem_std_sort]

theorem UniqueAndSorted_ctor_sorted_lt [LinearOrder α] (x : List α) :
    (UniqueAndSorted.ctor x).get.Sorted (· < ·) := by
  rw [UniqueAndSorted_ctor_get]
  exact std_unique_strict_of_sorted (std_sort_sorted x)

end AlgorithmFacts

/-! ## The container-transform policies -/

section TransformFacts

variable {α : Type}

/-- C1: for every container `x` over a linearly ordered element type, `UniqueAndSorted`
constructed from the raw value `x` holds a strictly ascending sequence, hence one without any
duplicate, whose elements are exactly the elements of `x`; `[3,1,2,1,3]` gives `[1,2,3]`. -/
theorem UniqueAndSorted_ctor_strictly_ascending_same_elements [LinearOrder α] (x : List α) :
    (UniqueAndSorted.ctor x).get.Sorted (· < ·) ∧
    (UniqueAndSorted.ctor x).get.Nodup ∧
    (∀ a : α, a ∈ (UniqueAndSorted.ctor x).get ↔ a ∈ x) ∧
    (UniqueAndSorted.ctor ([3, 1, 2, 1, 3] : List Nat)).get = [1, 2, 3] := by
  have hs : (UniqueAndSorted.ctor x).get.Sorted (· < ·) := by
    rw [UniqueAndSorted_ctor_get]
    exact std_unique_strict_of_sorted (std_sort_sorted x)
  refine ⟨hs, hs.nodup, ?_, by decide⟩
  intro a
  rw [UniqueAndSorted_ctor_get, mem_std_unique, mem_std_sort]

/-- C4: for every container `x`, `Sorted(x)` is constructed (the constructor has no failing
branch) and holds a sequence in non-descending order that is a permutation of `x`; `[3,1,2]`
gives `[1,2,3]`. -/
theorem Sorted_ctor_ascending_permutation [LinearOrder α] (x : List α) :
    (Sorted.ctor x).get.Sorted (· ≤ ·) ∧
    (Sorted.ctor x).get.Perm x ∧
    (Sorted.ctor ([3, 1, 2] : List Nat)).get = [1, 2, 3] :=
  ⟨std_sort_sorted x, std_sort_perm x, by decide⟩

/-- C5: `Sorted` is idempotent: a container `x` that is already in non-descending order is
held as it is, and for every `x` sorting what `Sorted(x)` holds gives the same sequence. -/
theorem Sorted_ctor_idempotent [LinearOrder α] (x : List α) :
    (x.Sorted (· ≤ ·) → (Sorted.ctor x).get = x) ∧
    (Sorted.ctor (Sorted.ctor x).get).get = (Sorted.ctor x).get :=
  ⟨fun h => std_sort_of_sorted h, std_sort_of_sorted (std_sort_sorted x)⟩

theorem Sorted_ctor_idempotent_witness :
    ([1, 2, 2, 5] : List Nat).Sorted (· ≤ ·) ∧
    (Sorted.ctor ([1, 2, 2, 5] : List Nat)).get = [1, 2, 2, 5] ∧
    (Sorted.ctor (Sorted.ctor ([1, 2, 2, 5] : List Nat)).get).get
      = (Sorted.ctor ([1, 2, 2, 5] : List Nat)).get :=
  ⟨by decide, (Sorted_ctor_idempotent [1, 2, 2, 5]).1 (by decide),
    (Sorted_ctor_idempotent [1, 2, 2, 5]).2⟩

/-- C6: for every container `x`, `Unique(x)` holds the consecutive-run collapse of `x` (the
first element of every maximal run of consecutive equal elements, in the original order): no
two neighbours of the result are equal, the result is a subsequence of `x`, and a container
whose equal elements are never adjacent is kept whole; `[1,1,2,3,3,1]` gives `[1,2,3,1]`. -/
theorem Unique_ctor_consecutive_run_collapse [DecidableEq α] (x : List α) :
    (Unique.ctor x).get = consecutive_run_collapse x ∧
    (Unique.ctor x).get.Chain' (· ≠ ·) ∧
    (Unique.ctor x).get.Sublist x ∧
    (x.Chain' (· ≠ ·) → (Unique.ctor x).get = x) ∧
    (Unique.ctor ([1, 1, 2, 3, 3, 1] : List Nat)).get = [1, 2, 3, 1] := by
  rw [Unique_ctor_get]
  exact ⟨std_unique_eq_consecutive_run_collapse x, std_unique_chain' x, std_unique_sublist x,
    fun h => std_unique_of_chain'_ne h, by decide⟩

theorem Unique_ctor_consecutive_run_collapse_witness :
    ([1, 2, 1, 3, 2] : List Nat).Chain' (· ≠ ·) ∧
    (Unique.ctor ([1, 2, 1, 3, 2] : List Nat)).get = [1, 2, 1, 3, 2] ∧
    (Unique.ctor ([1, 2, 1, 3, 2] : List Nat)).get
      = consecutive_run_collapse ([1, 2, 1, 3, 2] : List Nat) :=
  ⟨by simp, (Unique_ctor_consecutive_run_collapse [1, 2, 1, 3, 2]).2.2.2.1 (by simp),
    (Unique_ctor_consecutive_run_collapse [1, 2, 1, 3, 2]).1⟩

/-- C7: for every container `x` that is already in non-descending order, `Unique(x)` holds a
sequence without any duplicate (pairwise distinct elements); without that precondition this
fails for some container (`[1,2,1]` is kept as it is). -/
theorem Unique_ctor_nodup_of_sorted [LinearOrder α] (x : List α) :
    (x.Sorted (· ≤ ·) → (Unique.ctor x).get.Nodup) ∧
    (∃ y : List Nat, ¬ (Unique.ctor y).get.Nodup) := by
  constructor
  · intro h
    rw [Unique_ctor_get]
    exact (std_unique_strict_of_sorted h).nodup
  · refine ⟨[1, 2, 1], ?_⟩
    have h : (Unique.ctor ([1, 2, 1] : List Nat)).get = [1, 2, 1] := by decide
    rw [h]; decide

theorem Unique_ctor_nodup_of_sorted_witness :
    ([1, 1, 2, 3, 3] : List Nat).Sorted (· ≤ ·) ∧
    (Unique.ctor ([1, 1, 2, 3, 3] : List Nat)).get.Nodup :=
  ⟨by decide, (Unique_ctor_nodup_of_sorted [1, 1, 2, 3, 3]).1 (by decide)⟩

/-- The constructors that take a raw container are total: `Sorted(T&&)`, `Unique(T&&)` and
`UniqueAndSorted(T&&)` return a wrapper for every container (there is no failing branch); what
they hold is empty exactly when the input is empty, so the empty container gives the empty
container. -/
theorem transform_policies_from_raw_total [LinearOrder α] (x : List α) :
    ((Sorted.ctor x).get = [] ↔ x = []) ∧
    ((Unique.ctor x).get = [] ↔ x = []) ∧
    ((UniqueAndSorted.ctor x).get = [] ↔ x = []) ∧
    (Sorted.ctor ([] : List α)).get = [] ∧
    (Unique.ctor ([] : List α)).get = [] ∧
    (UniqueAndSorted.ctor ([] : List α)).get = [] := by
  refine ⟨?_, ?_, ?_, rfl, rfl, rfl⟩
  · rw [Sorted_ctor_get]
    exact eq_nil_iff_of_mem_iff (fun a => mem_std_sort a x)
  · rw [Unique_ctor_get]
    exact eq_nil_iff_of_mem_iff (fun a => mem_std_unique a x)
  · exact eq_nil_iff_of_mem_iff (fun a => mem_UniqueAndSorted_ctor a x)

/-- C18: `UniqueAndSorted` from a raw value is a canonical form: two containers `x` and `y`
with the same set of elements (whatever their order and multiplicities) give the same
sequence; in particular the construction is idempotent. -/
theorem UniqueAndSorted_ctor_canonical [LinearOrder α] (x y : List α) :
    ((∀ a, a ∈ x ↔ a ∈ y) → (UniqueAndSorted.ctor x).get = (UniqueAndSorted.ctor y).get) ∧
    (UniqueAndSorted.ctor (UniqueAndSorted.ctor x).get).get = (UniqueAndSorted.ctor x).get := by
  constructor
  · intro h
    refine eq_of_sorted_lt_of_mem_iff (UniqueAndSorted_ctor_sorted_lt x)
      (UniqueAndSorted_ctor_sorted_lt y) ?_
    intro a
    rw [mem_UniqueAndSorted_ctor, mem_UniqueAndSorted_ctor, h]
  · refine eq_of_sorted_lt_of_mem_iff (UniqueAndSorted_ctor_sorted_lt _)
      (UniqueAndSorted_ctor_sorted_lt x) ?_
    intro a
    rw [mem_UniqueAndSorted_ctor]

theorem UniqueAndSorted_ctor_canonical_witness :
    (∀ a : Nat, a ∈ [3, 1, 2, 1, 3] ↔ a ∈ [2, 3, 1]) ∧
    (UniqueAndSorted.ctor ([3, 1, 2, 1, 3] : List Nat)).get
      = (UniqueAndSorted.ctor ([2, 3, 1] : List Nat)).get ∧
    (UniqueAndSorted.ctor ([2, 3, 1] : List Nat)).get = [1, 2, 3] :=
  ⟨by intro a; simp only [List.mem_cons, List.mem_singleton, List.not_mem_nil, or_false]; omega,
    (UniqueAndSorted_ctor_canonical [3, 1, 2, 1, 3] [2, 3, 1]).1
      (by intro a; simp only [List.mem_cons, List.mem_singleton, List.not_mem_nil, or_false]
          omega),
    by decide⟩

end TransformFacts

/-! ## The accessors of the base -/

section AccessFacts

variable {T : Type}

/-- C14 as stated fails: the wrapper `NonZero(5)` is read again after the extracting
conversion. With nothing moved out of it (`moved_from = id`) the conversion yields `5`, then
`get()` and the const-reference conversion yield `5`, and a second extraction yields `5` again;
so it is not true that no read after an extraction yields a value. -/
theorem extraction_single_use_counterexample :
    NonZero.ctor (5 : Int) = .ok ⟨⟨5⟩⟩ ∧
    ((⟨⟨5⟩⟩ : NonZero Int).toFlaggedTBase.to_rvalue id).1 = 5 ∧
    ((⟨⟨5⟩⟩ : NonZero Int).toFlaggedTBase.to_rvalue id).2.get = 5 ∧
    ((⟨⟨5⟩⟩ : NonZero Int).toFlaggedTBase.to_rvalue id).2.to_const_ref = 5 ∧
    (((⟨⟨5⟩⟩ : NonZero Int).toFlaggedTBase.to_rvalue id).2.to_rvalue id).1 = 5 ∧
    ¬ (∀ w : FlaggedTBase Int, ∀ v : Int, (w.to_rvalue id).2.get ≠ v) :=
  ⟨rfl, rfl, rfl, rfl, rfl, fun h => h ⟨5⟩ 5 rfl⟩

/-- C14, amended: the extracting conversion hands out the value held and keeps no record of
it; for every wrapper, and whatever the caller's move leaves in `data`, `get()` and the
const-reference conversion afterwards still return, and what they return is that residue; when
nothing was moved out it is the value that was extracted. -/
theorem read_after_extraction_returns (moved_from : T → T) (w : FlaggedTBase T) :
    (w.to_rvalue moved_from).1 = w.get ∧
    (w.to_rvalue moved_from).2.get = moved_from w.get ∧
    (w.to_rvalue moved_from).2.to_const_ref = moved_from w.get ∧
    (w.to_rvalue id).2.get = (w.to_rvalue id).1 ∧
    (w.to_rvalue id).2.to_const_ref = (w.to_rvalue id).1 :=
  ⟨rfl, rfl, rfl, rfl, rfl⟩

end AccessFacts

/-! ## The predicate policies -/

section PredicateFacts

variable {T : Type} [LinearOrder T]

theorem NonZero_ctor_eq [Zero T] (v : T) :
    NonZero.ctor v
      = if 0 = v then .error "Can't pass 0 to constructor of NonZero" else .ok ⟨⟨v⟩⟩ :=
  rfl

/-- C9: for every value `v` of an ordered type with a zero, each sign policy rejects exactly
its documented condition (`NonZero`: `v = 0`, `Positive`: `v ≤ 0`, `Negative`: `v ≥ 0`,
`NonPositive`: `v > 0`, `NonNegative`: `v < 0`) and a wrapper that was constructed returns `v`
from `get()`; so `0` is accepted by `NonPositive` and `NonNegative` and rejected by `Positive`,
`Negative` and `NonZero`. -/
theorem sign_policies_reject_exactly [Zero T] (v : T) :
    ((fails (NonZero.ctor v) = true ↔ v = 0) ∧ ∀ w, NonZero.ctor v = .ok w → w.get = v) ∧
    ((fails (Positive.ctor v) = true ↔ v ≤ 0) ∧ ∀ w, Positive.ctor v = .ok w → w.get = v) ∧
    ((fails (Negative.ctor v) = true ↔ v ≥ 0) ∧ ∀ w, Negative.ctor v = .ok w → w.get = v) ∧
    ((fails (NonPositive.ctor v) = true ↔ v > 0) ∧
      ∀ w, NonPositive.ctor v = .ok w → w.get = v) ∧
    ((fails (NonNegative.ctor v) = true ↔ v < 0) ∧
      ∀ w, NonNegative.ctor v = .ok w → w.get = v) ∧
    (succeeds (NonPositive.ctor (0 : T)) = true ∧ succeeds (NonNegative.ctor (0 : T)) = true ∧
      fails (Positive.ctor (0 : T)) = true ∧ fails (Negative.ctor (0 : T)) = true ∧
      fails (NonZero.ctor (0 : T)) = true) := by
  refine ⟨⟨?_, ?_⟩, ⟨?_, ?_⟩, ⟨?_, ?_⟩, ⟨?_, ?_⟩, ⟨?_, ?_⟩, ?_, ?_, ?_, ?_, ?_⟩
  · rw [NonZero_ctor_eq]
    by_cases h : 0 = v
    · subst h; simp [fails]
    · simp [h, fails, Ne.symm h]
  · intro w hw
    rw [NonZero_ctor_eq] at hw
    by_cases h : 0 = v
    · subst h; simp at hw
    · simp only [h, if_false, Except.ok.injEq] at hw
      rw [← hw]; rfl
  · simp only [Positive.ctor, NonZero_ctor_eq, bind, Except.bind]
    by_cases h : 0 = v
    · subst h; simp [fails]
    · by_cases h2 : v ≤ 0
      · simp [h, h2, fails, pure, Except.pure, throw, throwThe, MonadExceptOf.throw]
      · simp [h, h2, fails, pure, Except.pure, throw, throwThe, MonadExceptOf.throw]
  · intro w hw
    simp only [Positive.ctor, NonZero_ctor_eq, bind, Except.bind] at hw
    by_cases h : 0 = v
    · subst h; simp at hw
    · by_cases h2 : v ≤ 0
      · simp [h, h2, throw, throwThe, MonadExceptOf.throw] at hw
      · simp only [h, h2, if_false, pure, Except.pure, Except.ok.injEq] at hw
        rw [← hw]; rfl
  · simp only [Negative.ctor, NonZero_ctor_eq, bind, Except.bind]
    by_cases h : 0 = v
    · subst h; simp [fails]
    · by_cases h2 : v ≥ 0
      · simp [h, h2, fails, pure, Except.pure, throw, throwThe, MonadExceptOf.throw]
      · simp [h, h2, fails, pure, Except.pure, throw, throwThe, MonadExceptOf.throw]
  · intro w hw
    simp only [Negative.ctor, NonZero_ctor_eq, bind, Except.bind] at hw
    by_cases h : 0 = v
    · subst h; simp at hw
    · by_cases h2 : v ≥ 0
      · simp [h, h2, throw, throwThe, MonadExceptOf.throw] at hw
      · simp only [h, h2, if_false, pure, Except.pure, Except.ok.injEq] at hw
        rw [← hw]; rfl
  · by_cases h : v > 0
    · simp [NonPositive.ctor, h, fails, throw, throwThe, MonadExceptOf.throw]
    · simp [NonPositive.ctor, h, fails, pure, Except.pure]
  · intro w hw
    by_cases h : v > 0
    · simp [NonPositive.ctor, h, throw, throwThe, MonadExceptOf.throw] at hw
    · simp only [NonPositive.ctor, h, if_false, pure, Except.pure, Except.ok.injEq] at hw
      rw [← hw]; rfl
  · by_cases h : v < 0
    · simp [NonNegative.ctor, h, fails, throw, throwThe, MonadExceptOf.throw]
    · simp [NonNegative.ctor, h, fails, pure, Except.pure]
  · intro w hw
    by_cases h : v < 0
    · simp [NonNegative.ctor, h, throw, throwThe, MonadExceptOf.throw] at hw
    · simp only [NonNegative.ctor, h, if_false, pure, Except.pure, Except.ok.injEq] at hw
      rw [← hw]; rfl
  · simp [NonPositive.ctor, succeeds, pure, Except.pure]
  · simp [NonNegative.ctor, succeeds, pure, Except.pure]
  · simp [Positive.ctor, NonZero_ctor_eq, bind, Except.bind, fails]
  · simp [Negative.ctor, NonZero_ctor_eq, bind, Except.bind, fails]
  · simp [NonZero_ctor_eq, fails]

theorem sign_policies_reject_exactly_witness :
    Positive.ctor (5 : Int) = .ok ⟨⟨⟨5⟩⟩⟩ ∧ (⟨⟨⟨5⟩⟩⟩ : Positive Int).get = 5 ∧
    Negative.ctor (-4 : Int) = .ok ⟨⟨⟨-4⟩⟩⟩ ∧ (⟨⟨⟨-4⟩⟩⟩ : Negative Int).get = -4 ∧
    fails (Positive.ctor (-3 : Int)) = true ∧ fails (NonNegative.ctor (-3 : Int)) = true ∧
    fails (NonPositive.ctor (7 : Int)) = true :=
  ⟨rfl, (sign_policies_reject_exactly (5 : Int)).2.1.2 _ rfl,
    rfl, (sign_policies_reject_exactly (-4 : Int)).2.2.1.2 _ rfl,
    (sign_policies_reject_exactly (-3 : Int)).2.1.1.2 (by decide),
    (sign_policies_reject_exactly (-3 : Int)).2.2.2.2.1.1.2 (by decide),
    (sign_policies_reject_exactly (7 : Int)).2.2.2.1.1.2 (by decide)⟩

/-- C10: for every value `v` and bounds `MIN`, `MAX`, the construction of `Bounded<MIN,MAX>`
succeeds if and only if `MIN ≤ v` and `v ≤ MAX` (both ends included), and a wrapper that was
constructed returns `v` from `get()`; for `Bounded<0,10>` the values `0` and `10` succeed and
`-1` and `11` fail. -/
theorem Bounded_ctor_succeeds_iff (MIN MAX v : T) :
    (succeeds (Bounded.ctor MIN MAX v) = true ↔ MIN ≤ v ∧ v ≤ MAX) ∧
    (∀ w, Bounded.ctor MIN MAX v = .ok w → w.get = v) ∧
    (succeeds (Bounded.ctor (0 : Int) 10 0) = true ∧
      succeeds (Bounded.ctor (0 : Int) 10 10) = true ∧
      fails (Bounded.ctor (0 : Int) 10 (-1)) = true ∧
      fails (Bounded.ctor (0 : Int) 10 11) = true) := by
  refine ⟨?_, ?_, by decide, by decide, by decide, by decide⟩
  · by_cases h1 : v < MIN
    · simp [Bounded.ctor, h1, succeeds, throw, throwThe, MonadExceptOf.throw]
    · by_cases h2 : v > MAX
      · simp [Bounded.ctor, h1, h2, succeeds, throw, throwThe, MonadExceptOf.throw]
      · simp only [Bounded.ctor, h1, h2, if_false, succeeds, pure, Except.pure, true_iff]
        exact ⟨not_lt.1 h1, not_lt.1 h2⟩
  · intro w hw
    by_cases h1 : v < MIN
    · simp [Bounded.ctor, h1, throw, throwThe, MonadExceptOf.throw] at hw
    · by_cases h2 : v > MAX
      · simp [Bounded.ctor, h1, h2, throw, throwThe, MonadExceptOf.throw] at hw
      · simp only [Bounded.ctor, h1, h2, if_false, pure, Except.pure, Except.ok.injEq] at hw
        rw [← hw]; rfl

theorem Bounded_ctor_succeeds_iff_witness :
    Bounded.ctor (0 : Int) 10 7 = .ok ⟨⟨7⟩⟩ ∧ (⟨⟨7⟩⟩ : Bounded Int 0 10).get = 7 ∧
    succeeds (Bounded.ctor (0 : Int) 10 7) = true :=
  ⟨rfl, (Bounded_ctor_succeeds_iff (0 : Int) 10 7).2.1 _ rfl,
    (Bounded_ctor_succeeds_iff (0 : Int) 10 7).1.2 (by decide)⟩

theorem fails_ite_iff {β : Type} (c : Prop) [Decidable c] (e : String) (w : β) :
    fails (if c then (Except.error e : Except String β) else Except.ok w) = true ↔ c := by
  by_cases h : c <;> simp [h, fails]

theorem succeeds_ite_iff {β : Type} (c : Prop) [Decidable c] (e : String) (w : β) :
    succeeds (if c then (Except.error e : Except String β) else Except.ok w) = true ↔ ¬ c := by
  by_cases h : c <;> simp [h, succeeds]

theorem eq_of_ite_eq_ok {β : Type} (c : Prop) [Decidable c] (e : String) (w w' : β)
    (h : (if c then (Except.error e : Except String β) else Except.ok w) = Except.ok w') :
    w' = w := by
  by_cases hc : c
  · simp [hc] at h
  · simp only [hc, if_false, Except.ok.injEq] at h
    exact h.symm

theorem CeiledInclusive_ctor_eq (MAX v : T) :
    CeiledInclusive.ctor MAX v
      = if v > MAX then .error "Passed value to constructor of CeiledInclusive is too big"
        else .ok ⟨⟨v⟩⟩ :=
  rfl

theorem CeiledExclusive_ctor_eq (MAX v : T) :
    CeiledExclusive.ctor MAX v
      = if v ≥ MAX then .error "Passed value to constructor of CeiledExclusive is too big"
        else .ok ⟨⟨v⟩⟩ :=
  rfl

theorem FlooredInclusive_ctor_eq (MIN v : T) :
    FlooredInclusive.ctor MIN v
      = if v < MIN then .error "Passed value to constructor of FlooredInclusive is too small"
        else .ok ⟨⟨v⟩⟩ :=
  rfl

theorem FlooredExclusive_ctor_eq (MIN v : T) :
    FlooredExclusive.ctor MIN v
      = if v ≤ MIN then .error "Passed value to constructor of FlooredExclusive is too small"
        else .ok ⟨⟨v⟩⟩ :=
  rfl

/-- C11: for every value `v` and bound `B`, each one-sided range policy rejects exactly its
documented condition (`CeiledInclusive<B>`: `v > B`, `CeiledExclusive<B>`: `v ≥ B`,
`FlooredInclusive<B>`: `v < B`, `FlooredExclusive<B>`: `v ≤ B`) and a wrapper that was
constructed returns `v` from `get()`; for `CeiledExclusive<10>`, `10` fails and `9` succeeds. -/
theorem one_sided_range_policies_reject_exactly (B v : T) :
    ((fails (CeiledInclusive.ctor B v) = true ↔ v > B) ∧
      ∀ w, CeiledInclusive.ctor B v = .ok w → w.get = v) ∧
    ((fails (CeiledExclusive.ctor B v) = true ↔ v ≥ B) ∧
      ∀ w, CeiledExclusive.ctor B v = .ok w → w.get = v) ∧
    ((fails (FlooredInclusive.ctor B v) = true ↔ v < B) ∧
      ∀ w, FlooredInclusive.ctor B v = .ok w → w.get = v) ∧
    ((fails (FlooredExclusive.ctor B v) = true ↔ v ≤ B) ∧
      ∀ w, FlooredExclusive.ctor B v = .ok w → w.get = v) ∧
    (fails (CeiledExclusive.ctor (10 : Int) 10) = true ∧
      succeeds (CeiledExclusive.ctor (10 : Int) 9) = true) := by
  refine ⟨⟨?_, ?_⟩, ⟨?_, ?_⟩, ⟨?_, ?_⟩, ⟨?_, ?_⟩, by decide, by decide⟩
  · rw [CeiledInclusive_ctor_eq]; exact fails_ite_iff _ _ _
  · intro w hw
    rw [CeiledInclusive_ctor_eq] at hw
    rw [eq_of_ite_eq_ok _ _ _ _ hw]; rfl
  · rw [CeiledExclusive_ctor_eq]; exact fails_ite_iff _ _ _
  · intro w hw
    rw [CeiledExclusive_ctor_eq] at hw
    rw [eq_of_ite_eq_ok _ _ _ _ hw]; rfl
  · rw [FlooredInclusive_ctor_eq]; exact fails_ite_iff _ _ _
  · intro w hw
    rw [FlooredInclusive_ctor_eq] at hw
    rw [eq_of_ite_eq_ok _ _ _ _ hw]; rfl
  · rw [FlooredExclusive_ctor_eq]; exact fails_ite_iff _ _ _
  · intro w hw
    rw [FlooredExclusive_ctor_eq] at hw
    rw [eq_of_ite_eq_ok _ _ _ _ hw]; rfl

theorem one_sided_range_policies_reject_exactly_witness :
    CeiledExclusive.ctor (10 : Int) 9 = .ok ⟨⟨9⟩⟩ ∧
    (⟨⟨9⟩⟩ : CeiledExclusive Int 10).get = 9 ∧
    fails (FlooredExclusive.ctor (3 : Int) 3) = true ∧
    fails (CeiledInclusive.ctor (3 : Int) 4) = true :=
  ⟨rfl, (one_sided_range_policies_reject_exactly (10 : Int) 9).2.1.2 _ rfl,
    (one_sided_range_policies_reject_exactly (3 : Int) 3).2.2.2.1.1.2 (by decide),
    (one_sided_range_policies_reject_exactly (3 : Int) 4).1.1.2 (by decide)⟩

section SizeFacts

variable {α : Type}

theorem NonEmpty_ctor_eq (c : List α) :
    NonEmpty.ctor c
      = if c.isEmpty = true then .error "Can't pass empty container to constructor of NonEmpty"
        else .ok ⟨⟨c⟩⟩ :=
  rfl

theorem MoreThan_ctor_eq (SIZE : Nat) (c : List α) :
    MoreThan.ctor SIZE c
      = if c.isEmpty = true then .error "Can't pass empty container to constructor of NonEmpty"
        else if c.length ≤ SIZE then
          .error "Passed too small container to constructor of MoreThan"
        else .ok ⟨⟨⟨c⟩⟩⟩ := by
  cases c with
  | nil => rfl
  | cons a t => rfl

theorem LessThan_ctor_eq (SIZE : Nat) (c : List α) :
    LessThan.ctor SIZE c
      = if c.length ≥ SIZE then .error "Passed too big container to constructor of LessThan"
        else .ok ⟨⟨c⟩⟩ :=
  rfl

theorem FixedSized_ctor_eq (SIZE : Nat) (c : List α) :
    FixedSized.ctor SIZE c
      = if c.length ≠ SIZE then
          .error "Passed container with wrong size to constructor of FixedSized"
        else .ok ⟨⟨c⟩⟩ :=
  rfl

theorem fails_NonEmpty_iff (c : List α) : fails (NonEmpty.ctor c) = true ↔ c = [] := by
  rw [NonEmpty_ctor_eq, fails_ite_iff, List.isEmpty_iff]

theorem fails_MoreThan_iff (SIZE : Nat) (c : List α) :
    fails (MoreThan.ctor SIZE c) = true ↔ c.length ≤ SIZE := by
  rw [MoreThan_ctor_eq]
  cases c with
  | nil => simp [fails]
  | cons a t =>
    simp only [List.isEmpty_cons, Bool.false_eq_true, if_false]
    exact fails_ite_iff _ _ _

theorem fails_LessThan_iff (SIZE : Nat) (c : List α) :
    fails (LessThan.ctor SIZE c) = true ↔ c.length ≥ SIZE := by
  rw [LessThan_ctor_eq]; exact fails_ite_iff _ _ _

theorem fails_FixedSized_iff (SIZE : Nat) (c : List α) :
    fails (FixedSized.ctor SIZE c) = true ↔ c.length ≠ SIZE := by
  rw [FixedSized_ctor_eq]; exact fails_ite_iff _ _ _

theorem succeeds_iff_not_fails_true {ε β : Type} (r : Except ε β) :
    succeeds r = true ↔ ¬ fails r = true := by
  cases r <;> simp [succeeds, fails]

/-- C12: for every container `c` and size `N`, each container-size policy rejects exactly its
documented condition (`NonEmpty`: `c` is empty, `MoreThan<N>`: `size ≤ N`, `LessThan<N>`:
`size ≥ N`, `FixedSized<N>`: `size ≠ N`) and a wrapper that was constructed returns `c` from
`get()`; `MoreThan<2>([1,2])` fails and `MoreThan<2>([1,2,3])` succeeds. -/
theorem size_policies_reject_exactly (N : Nat) (c : List α) :
    ((fails (NonEmpty.ctor c) = true ↔ c = []) ∧
      ∀ w, NonEmpty.ctor c = .ok w → w.get = c) ∧
    ((fails (MoreThan.ctor N c) = true ↔ c.length ≤ N) ∧
      ∀ w, MoreThan.ctor N c = .ok w → w.get = c) ∧
    ((fails (LessThan.ctor N c) = true ↔ c.length ≥ N) ∧
      ∀ w, LessThan.ctor N c = .ok w → w.get = c) ∧
    ((fails (FixedSized.ctor N c) = true ↔ c.length ≠ N) ∧
      ∀ w, FixedSized.ctor N c = .ok w → w.get = c) ∧
    (fails (MoreThan.ctor 2 [1, 2]) = true ∧ succeeds (MoreThan.ctor 2 [1, 2, 3]) = true) := by
  refine ⟨⟨fails_NonEmpty_iff c, ?_⟩, ⟨fails_MoreThan_iff N c, ?_⟩,
    ⟨fails_LessThan_iff N c, ?_⟩, ⟨fails_FixedSized_iff N c, ?_⟩, by decide, by decide⟩
  · intro w hw
    rw [NonEmpty_ctor_eq] at hw
    rw [eq_of_ite_eq_ok _ _ _ _ hw]; rfl
  · intro w hw
    rw [MoreThan_ctor_eq] at hw
    by_cases h : c.isEmpty = true
    · simp [h] at hw
    · simp only [h, if_false] at hw
      rw [eq_of_ite_eq_ok _ _ _ _ hw]; rfl
  · intro w hw
    rw [LessThan_ctor_eq] at hw
    rw [eq_of_ite_eq_ok _ _ _ _ hw]; rfl
  · intro w hw
    rw [FixedSized_ctor_eq] at hw
    rw [eq_of_ite_eq_ok _ _ _ _ hw]; rfl

theorem size_policies_reject_exactly_witness :
    MoreThan.ctor 2 [4, 5, 6] = .ok ⟨⟨⟨[4, 5, 6]⟩⟩⟩ ∧
    (⟨⟨⟨[4, 5, 6]⟩⟩⟩ : MoreThan Nat 2).get = [4, 5, 6] ∧
    fails (FixedSized.ctor 3 [4, 5]) = true ∧
    fails (LessThan.ctor 2 [4, 5]) = true :=
  ⟨rfl, (size_policies_reject_exactly 2 [4, 5, 6]).2.1.2 _ rfl,
    (size_policies_reject_exactly 3 [4, 5]).2.2.2.1.1.2 (by decide),
    (size_policies_reject_exactly 2 [4, 5]).2.2.1.1.2 (by decide)⟩

/-- C19: size trichotomy: for every container `c` and size `N`, exactly one of the
constructions `MoreThan<N>(c)`, `LessThan<N>(c)`, `FixedSized<N>(c)` succeeds; `LessThan<0>`
rejects every container and `MoreThan<0>` accepts exactly the containers `NonEmpty` accepts. -/
theorem size_trichotomy (N : Nat) (c : List α) :
    ((succeeds (MoreThan.ctor N c) = true ∨ succeeds (LessThan.ctor N c) = true ∨
        succeeds (FixedSized.ctor N c) = true) ∧
      ¬ (succeeds (MoreThan.ctor N c) = true ∧ succeeds (LessThan.ctor N c) = true) ∧
      ¬ (succeeds (MoreThan.ctor N c) = true ∧ succeeds (FixedSized.ctor N c) = true) ∧
      ¬ (succeeds (LessThan.ctor N c) = true ∧ succeeds (FixedSized.ctor N c) = true)) ∧
    fails (LessThan.ctor 0 c) = true ∧
    (succeeds (MoreThan.ctor 0 c) = true ↔ succeeds (NonEmpty.ctor c) = true) := by
  simp only [succeeds_iff_not_fails_true, fails_MoreThan_iff, fails_LessThan_iff,
    fails_FixedSized_iff, fails_NonEmpty_iff]
  refine ⟨⟨?_, ?_, ?_, ?_⟩, ?_, ?_⟩
  · omega
  · omega
  · omega
  · omega
  · omega
  · cases c with
    | nil => simp
    | cons a t => simp

end SizeFacts

section NullFacts

variable {A : Type}

/-- C13: for every pointer-like value `p`, the construction of `NonNull` fails if and only if
`p` is null; when `p` is not null the construction succeeds and `get()` returns `p`. -/
theorem NonNull_ctor_fails_iff_null (p : Option A) :
    (fails (NonNull.ctor p) = true ↔ p = none) ∧
    (p ≠ none → ∃ w, NonNull.ctor p = .ok w ∧ w.get = p) := by
  cases p with
  | none => exact ⟨by simp [NonNull.ctor, fails, throw, throwThe, MonadExceptOf.throw],
      fun h => absurd rfl h⟩
  | some a => exact ⟨by simp [NonNull.ctor, fails, pure, Except.pure], fun _ => ⟨_, rfl, rfl⟩⟩

theorem NonNull_ctor_fails_iff_null_witness :
    (some 7 : Option Nat) ≠ none ∧
    (∃ w, NonNull.ctor (some 7 : Option Nat) = .ok w ∧ w.get = some 7) ∧
    fails (NonNull.ctor (none : Option Nat)) = true :=
  ⟨by decide, (NonNull_ctor_fails_iff_null (some 7 : Option Nat)).2 (by decide),
    (NonNull_ctor_fails_iff_null (none : Option Nat)).1.2 rfl⟩

end NullFacts

section DerivedFacts

theorem Positive_ctor_eq [Zero T] (v : T) :
    Positive.ctor v
      = if 0 = v then .error "Can't pass 0 to constructor of NonZero"
        else if v ≤ 0 then .error "Can't pass <= 0 to constructor of Positive"
        else .ok ⟨⟨⟨v⟩⟩⟩ := by
  simp only [Positive.ctor, NonZero_ctor_eq, bind, Except.bind]
  by_cases h : 0 = v
  · simp only [h, if_true]
  · simp only [h, if_false]; rfl

theorem Positive_ctor_strict_eq [Zero T] (v : T) :
    Positive.ctor_strict v
      = if 0 = v then .error "Can't pass 0 to constructor of NonZero"
        else if v < 0 then .error "Can't pass <= 0 to constructor of Positive"
        else .ok ⟨⟨⟨v⟩⟩⟩ := by
  simp only [Positive.ctor_strict, NonZero_ctor_eq, bind, Except.bind]
  by_cases h : 0 = v
  · simp only [h, if_true]
  · simp only [h, if_false]; rfl

theorem Negative_ctor_eq [Zero T] (v : T) :
    Negative.ctor v
      = if 0 = v then .error "Can't pass 0 to constructor of NonZero"
        else if v ≥ 0 then .error "Can't pass >= 0 to constructor of Negative"
        else .ok ⟨⟨⟨v⟩⟩⟩ := by
  simp only [Negative.ctor, NonZero_ctor_eq, bind, Except.bind]
  by_cases h : 0 = v
  · simp only [h, if_true]
  · simp only [h, if_false]; rfl

theorem Negative_ctor_strict_eq [Zero T] (v : T) :
    Negative.ctor_strict v
      = if 0 = v then .error "Can't pass 0 to constructor of NonZero"
        else if v > 0 then .error "Can't pass >= 0 to constructor of Negative"
        else .ok ⟨⟨⟨v⟩⟩⟩ := by
  simp only [Negative.ctor_strict, NonZero_ctor_eq, bind, Except.bind]
  by_cases h : 0 = v
  · simp only [h, if_true]
  · simp only [h, if_false]; rfl

/-- C16: in `Positive` and `Negative` the zero case is decided by the inherited `NonZero`
check, which runs first: for `v = 0` the construction fails with the error of `NonZero`, the
error of the derived policy is raised exactly for `v < 0` (`Positive`) and `v > 0`
(`Negative`), so never for `v = 0` (the derived check is run on the wrapper that `NonZero`
returned, which exists only for `v ≠ 0`), and the derived checks `<= 0` / `>= 0` give the same result
as the strict checks `< 0` / `> 0` would, for every `v`. -/
theorem Positive_Negative_zero_decided_by_NonZero [Zero T] (v : T) :
    Positive.ctor (0 : T) = .error "Can't pass 0 to constructor of NonZero" ∧
    Negative.ctor (0 : T) = .error "Can't pass 0 to constructor of NonZero" ∧
    (Positive.ctor v = .error "Can't pass <= 0 to constructor of Positive" ↔ v < 0) ∧
    (Negative.ctor v = .error "Can't pass >= 0 to constructor of Negative" ↔ v > 0) ∧
    (∀ base, NonZero.ctor v = .ok base → v ≠ 0) ∧
    Positive.ctor v = Positive.ctor_strict v ∧
    Negative.ctor v = Negative.ctor_strict v := by
  refine ⟨?_, ?_, ?_, ?_, ?_, ?_, ?_⟩
  · rw [Positive_ctor_eq]; simp
  · rw [Negative_ctor_eq]; simp
  · rw [Positive_ctor_eq]
    by_cases h : 0 = v
    · subst h; simp
    · by_cases h2 : v ≤ 0
      · simp [h, h2, lt_of_le_of_ne h2 (Ne.symm h)]
      · simp only [h, h2, if_false, false_iff, reduceCtorEq]
        exact fun h3 => h2 (le_of_lt h3)
  · rw [Negative_ctor_eq]
    by_cases h : 0 = v
    · subst h; simp
    · by_cases h2 : v ≥ 0
      · simp [h, h2, lt_of_le_of_ne h2 h]
      · simp only [h, h2, if_false, false_iff, reduceCtorEq]
        exact fun h3 => h2 (le_of_lt h3)
  · intro base hb hv
    rw [NonZero_ctor_eq, hv] at hb
    simp at hb
  · rw [Positive_ctor_eq, Positive_ctor_strict_eq]
    by_cases h : 0 = v
    · simp only [h, if_true]
    · have hiff : v ≤ 0 ↔ v < 0 :=
        ⟨fun h2 => lt_of_le_of_ne h2 (Ne.symm h), le_of_lt⟩
      simp only [h, if_false, hiff]
  · rw [Negative_ctor_eq, Negative_ctor_strict_eq]
    by_cases h : 0 = v
    · simp only [h, if_true]
    · have hiff : v ≥ 0 ↔ v > 0 :=
        ⟨fun h2 => lt_of_le_of_ne h2 h, le_of_lt⟩
      simp only [h, if_false, hiff]

theorem Positive_Negative_zero_decided_by_NonZero_witness :
    NonZero.ctor (6 : Int) = .ok ⟨⟨6⟩⟩ ∧ (6 : Int) ≠ 0 ∧
    Positive.ctor (-2 : Int) = .error "Can't pass <= 0 to constructor of Positive" ∧
    Positive.ctor (6 : Int) = Positive.ctor_strict (6 : Int) :=
  ⟨rfl, (Positive_Negative_zero_decided_by_NonZero (6 : Int)).2.2.2.2.1 _ rfl,
    (Positive_Negative_zero_decided_by_NonZero (-2 : Int)).2.2.1.2 (by decide),
    (Positive_Negative_zero_decided_by_NonZero (6 : Int)).2.2.2.2.2.1⟩

theorem Bounded_ctor_eq (MIN MAX v : T) :
    Bounded.ctor MIN MAX v
      = if v < MIN then .error "Passed value to constructor of Bounded is too small"
        else if v > MAX then .error "Passed value to constructor of Bounded is too big"
        else .ok ⟨⟨v⟩⟩ :=
  rfl

theorem succeeds_Bounded_iff (MIN MAX v : T) :
    succeeds (Bounded.ctor MIN MAX v) = true ↔ MIN ≤ v ∧ v ≤ MAX := by
  rw [Bounded_ctor_eq]
  by_cases h1 : v < MIN
  · simp [h1, succeeds]
  · simp only [h1, if_false]
    rw [succeeds_ite_iff]
    exact ⟨fun h2 => ⟨not_lt.1 h1, not_lt.1 h2⟩, fun h2 => not_lt.2 h2.2⟩

/-- C20: for every value `v` and bounds `MIN`, `MAX`, `Bounded<MIN,MAX>(v)` succeeds if and
only if `FlooredInclusive<MIN>(v)` and `CeiledInclusive<MAX>(v)` both succeed; so when
`MIN > MAX` the construction `Bounded<MIN,MAX>(v)` fails for every `v`. -/
theorem Bounded_iff_Floored_and_Ceiled (MIN MAX v : T) :
    (succeeds (Bounded.ctor MIN MAX v) = true ↔
      succeeds (FlooredInclusive.ctor MIN v) = true ∧
        succeeds (CeiledInclusive.ctor MAX v) = true) ∧
    (MIN > MAX → ∀ u : T, fails (Bounded.ctor MIN MAX u) = true) := by
  constructor
  · rw [succeeds_Bounded_iff, FlooredInclusive_ctor_eq, CeiledInclusive_ctor_eq,
      succeeds_ite_iff, succeeds_ite_iff, not_lt, not_lt]
  · intro h u
    have hn : ¬ succeeds (Bounded.ctor MIN MAX u) = true := by
      rw [succeeds_Bounded_iff]
      intro hu
      exact absurd (lt_of_le_of_lt (le_trans hu.1 hu.2) h) (lt_irrefl _)
    cases hr : Bounded.ctor MIN MAX u with
    | error e => rfl
    | ok w => rw [hr] at hn; exact absurd rfl hn

theorem Bounded_iff_Floored_and_Ceiled_witness :
    (10 : Int) > 0 ∧ fails (Bounded.ctor (10 : Int) 0 5) = true ∧
    (succeeds (Bounded.ctor (0 : Int) 10 5) = true ↔
      succeeds (FlooredInclusive.ctor (0 : Int) 5) = true ∧
        succeeds (CeiledInclusive.ctor (10 : Int) 5) = true) :=
  ⟨by decide, (Bounded_iff_Floored_and_Ceiled (10 : Int) 0 5).2 (by decide) 5,
    (Bounded_iff_Floored_and_Ceiled (0 : Int) 10 5).1⟩

end DerivedFacts

end PredicateFacts


end flaggedT
